import Mathlib

/-!
Shallow embedding of `src/check_schengen.py` (schngn-watcher).

The script monitors an HTML availability table for a set of tracked
countries, compares the extracted status text against two sentinel
strings, sends a Telegram notification for actionable statuses, and
persists a country → last-seen-status mapping in a JSON state file.

Modelling conventions:
* Python strings are Lean `String`s; the inputs relevant to the claims
  are ASCII letters, spaces and a few pictographic characters, on which
  the ASCII-based `Char.isAlpha` / `Char.toLower` agree with Python's
  Unicode-aware `str.isalpha` / `str.lower`.
* The file system and the network are explicit: the state file is a
  `FileContent` value, and a run produces a trace of `Effect`s (HTML
  fetch, state read, HTTP POST, state write) so that "no network call
  is attempted" and "before fetching" are statable.
* BeautifulSoup row extraction is abstracted to a `Row` per `<tr>`:
  the (already `strip=True`-extracted) text of its `<th>`, if any, and
  of its `<span class="font-bold">`, if any.
* `requests.post` / `requests.get` are assumed to succeed when reached;
  network failures are outside every claim considered here.
-/

/-- Python truthiness-relevant whitespace: the characters stripped by
`str.strip()` for the ASCII range. -/
def pyIsSpace (c : Char) : Bool :=
  c = ' ' || c = '\t' || c = '\n' || c = '\x0d' || c = '\x0b' || c = '\x0c'

/-- Python `str.isalpha` restricted to the ASCII letters (the only cased
characters occurring in the inputs considered). -/
def pyIsAlpha (c : Char) : Bool :=
  c.isAlpha

/-- Python `str.strip()`: drop leading and trailing whitespace. -/
def pyStrip (s : String) : String :=
  String.mk (((s.toList.dropWhile pyIsSpace).reverse.dropWhile pyIsSpace).reverse)

/-- Python `str.lower()` (ASCII range). -/
def pyLower (s : String) : String :=
  String.mk (s.toList.map Char.toLower)

/-- Helper for `pySplitComma`: the accumulator holds the current field
reversed. -/
def pySplitCommaAux : List Char → List Char → List String
  | acc, [] => [String.mk acc.reverse]
  | acc, c :: cs =>
    if c = ',' then
      String.mk acc.reverse :: pySplitCommaAux [] cs
    else
      pySplitCommaAux (c :: acc) cs

/-- Python `str.split(",")`: split at every comma, keeping empty
fields; the empty string yields `[""]`. -/
def pySplitComma (s : String) : List String :=
  pySplitCommaAux [] s.toList

/-- Helper for `pyTitle`: the Boolean records whether the previous
character was cased. -/
def pyTitleAux : Bool → List Char → List Char
  | _, [] => []
  | prev, c :: cs =>
    if pyIsAlpha c then
      (if prev then c.toLower else c.toUpper) :: pyTitleAux true cs
    else
      c :: pyTitleAux false cs

/-- Python `str.title()` (ASCII range): uppercase a letter after a
non-letter, lowercase a letter after a letter. -/
def pyTitle (s : String) : String :=
  String.mk (pyTitleAux false s.toList)

/-- `normalize_country_name` (src lines 37-42): keep only letters and
whitespace, then strip. Note: it does NOT lowercase. -/
def normalize_country_name (raw_name : String) : String :=
  pyStrip (String.mk (raw_name.toList.filter (fun ch => pyIsAlpha ch || pyIsSpace ch)))

/-- The matching key actually used by `check_slot` at src lines 90 and
125: `normalize_country_name(x).lower()`. -/
def normLowerKey (raw : String) : String :=
  pyLower (normalize_country_name raw)

/-- Contents of the state file as seen by `load_last_state`: absent,
present but not parseable as JSON, or a parsed JSON object
(country → last-seen status). A JSON document that parses to a
non-object is not modelled; no claim involves it. -/
inductive FileContent where
  | absent : FileContent
  | invalid : FileContent
  | valid : List (String × String) → FileContent
deriving DecidableEq, Repr

/-- `load_last_state` (src lines 44-54): missing or unparseable file
yields the empty mapping; the function is total (never raises). -/
def load_last_state : FileContent → List (String × String)
  | .absent => []
  | .invalid => []
  | .valid st => st

/-- `save_last_state` (src lines 56-62): serialize the mapping back to
the state file. -/
def save_last_state (state : List (String × String)) : FileContent :=
  .valid state

/-- Python dict assignment `d[k] = v` on an insertion-ordered mapping:
update the existing entry in place, else append. -/
def dictInsert : List (String × String) → String → String → List (String × String)
  | [], k, v => [(k, v)]
  | (k₀, v₀) :: rest, k, v =>
    if k₀ = k then (k, v) :: rest else (k₀, v₀) :: dictInsert rest k v

/-- One HTTP POST to the Telegram sendMessage endpoint
(src lines 28-34). -/
structure TelegramPost where
  url : String
  chat_id : String
  text : String
  parse_mode : String
deriving DecidableEq, Repr

/-- Externally observable effects of one run, in order. -/
inductive Effect where
  | fetchHtml : Effect
  | readState : Effect
  | httpPost : TelegramPost → Effect
  | writeState : FileContent → Effect
deriving DecidableEq, Repr

/-- Configuration read from the environment (src lines 12-19). -/
structure Config where
  citySlug : String
  visaType : String
  targetCountries : String
  telegramToken : String
  chatId : String
deriving DecidableEq, Repr

/-- `send_telegram` (src lines 22-35): raises if the token or the chat
id is empty (Python falsiness of the empty string), otherwise POSTs.
Returns the network trace and `none` on success, `some msg` when the
`RuntimeError` is raised. -/
def send_telegram (token chat_id text : String) : List Effect × Option String :=
  if token = "" || chat_id = "" then
    ([], some "Missing TELEGRAM_TOKEN or CHAT_ID environment variable")
  else
    ([Effect.httpPost
        { url := "https://api.telegram.org/bot" ++ token ++ "/sendMessage"
          chat_id := chat_id
          text := text
          parse_mode := "Markdown" }],
      none)

/-- The notification message built at src lines 138-142. -/
def mkMessage (cfg : Config) (raw_country earliest_text : String) : String :=
  "🎉 *" ++ raw_country ++ "* slot detected in *" ++ pyTitle cfg.citySlug ++ "*!  \n" ++
  "🗓 *Earliest Available:* " ++ earliest_text ++ "  \n" ++
  "🔗 https://schengenappointments.com/in/" ++ cfg.citySlug ++ "/" ++ cfg.visaType

/-- One `<tr>` of the parsed table, as `check_slot` consumes it: the
stripped text of the row's `<th>` (if the row has one) and of its
`<span class="font-bold">` (if present). -/
structure Row where
  th : Option String
  span : Option String
deriving DecidableEq, Repr

/-- `raw_list` at src line 89: split the configured list on commas,
strip, and keep the non-empty entries. -/
def rawListOf (cfg : Config) : List String :=
  ((pySplitComma cfg.targetCountries).map pyStrip).filter (fun c => c ≠ "")

/-- `targets` at src line 90: normalized, lowercased target names. -/
def targetsOf (cfg : Config) : List String :=
  (rawListOf cfg).map normLowerKey

/-- The two sentinel strings of src line 137. -/
def sentinels : List String :=
  ["No availability", "Waitlist Open"]

/-- The per-row loop of `check_slot` (src lines 119-148): for each row
with a `<th>` whose key is targeted, extract `earliest_text` (empty
when the span is absent), send a Telegram message when the status is
actionable, then record the status in the state. Returns the effect
trace and either the propagated exception or the final state paired
with the `found_any` flag. -/
def processRows (cfg : Config) (targets : List String) :
    List (String × String) → Bool → List Row →
    List Effect × Except String (List (String × String) × Bool)
  | st, found_any, [] => ([], .ok (st, found_any))
  | st, found_any, row :: rest =>
    match row.th with
    | none => processRows cfg targets st found_any rest
    | some raw_country =>
      let norm_country := normLowerKey raw_country
      if targets.contains norm_country then
        let earliest_text := row.span.getD ""
        if earliest_text ≠ "" && !(sentinels.contains earliest_text) then
          match send_telegram cfg.telegramToken cfg.chatId
              (mkMessage cfg raw_country earliest_text) with
          | (es, some err) => (es, .error err)
          | (es, none) =>
            let st' := dictInsert st norm_country earliest_text
            let r := processRows cfg targets st' true rest
            (es ++ r.1, r.2)
        else
          let st' := dictInsert st norm_country earliest_text
          processRows cfg targets st' true rest
      else
        processRows cfg targets st found_any rest

/-- `check_slot` (src lines 87-154): validate the target list (before
any fetch or state access), fetch the page, load the prior state, run
the per-row loop, and save the state back. A raised exception
propagates and skips the save. -/
def check_slot (cfg : Config) (prior : FileContent) (rows : List Row) :
    List Effect × Except String Unit :=
  if (targetsOf cfg).isEmpty then
    ([], .error "TARGET_COUNTRIES is empty or invalid. Provide e.g. 'Cyprus,Italy'")
  else
    let last_state := load_last_state prior
    match processRows cfg (targetsOf cfg) last_state false rows with
    | (es, .error e) => (Effect.fetchHtml :: Effect.readState :: es, .error e)
    | (es, .ok (st, _)) =>
      (Effect.fetchHtml :: Effect.readState :: (es ++ [Effect.writeState (save_last_state st)]),
        .ok ())

/-- The `__main__` guard (src lines 156-161): exit code 0 on success,
1 when `check_slot` raised. -/
def mainExitCode (cfg : Config) (prior : FileContent) (rows : List Row) : Nat :=
  match (check_slot cfg prior rows).2 with
  | .ok _ => 0
  | .error _ => 1

/-- The HTTP POSTs occurring in a trace, in order. -/
def notificationsOf (es : List Effect) : List TelegramPost :=
  es.filterMap (fun e =>
    match e with
    | .httpPost p => some p
    | _ => none)

/-- The state-file writes occurring in a trace, in order. -/
def savedOf (es : List Effect) : List FileContent :=
  es.filterMap (fun e =>
    match e with
    | .writeState fc => some fc
    | _ => none)

/-- Modelled from the spec: the edge-triggered notification mode
(spec §4.4 step 4) is not implemented in `src/check_schengen.py`,
which hard-codes the level-triggered policy; per the spec it notifies
only when the actionable status differs from the last persisted value
for the entity, and still always persists the latest status
(spec §4.4 step 5). Everything else mirrors `processRows`. -/
def processRowsEdge (cfg : Config) (targets : List String) :
    List (String × String) → Bool → List Row →
    List Effect × Except String (List (String × String) × Bool)
  | st, found_any, [] => ([], .ok (st, found_any))
  | st, found_any, row :: rest =>
    match row.th with
    | none => processRowsEdge cfg targets st found_any rest
    | some raw_country =>
      let norm_country := normLowerKey raw_country
      if targets.contains norm_country then
        let earliest_text := row.span.getD ""
        if earliest_text ≠ "" && !(sentinels.contains earliest_text)
            && !(st.lookup norm_country = some earliest_text) then
          match send_telegram cfg.telegramToken cfg.chatId
              (mkMessage cfg raw_country earliest_text) with
          | (es, some err) => (es, .error err)
          | (es, none) =>
            let st' := dictInsert st norm_country earliest_text
            let r := processRowsEdge cfg targets st' true rest
            (es ++ r.1, r.2)
        else
          let st' := dictInsert st norm_country earliest_text
          processRowsEdge cfg targets st' true rest
      else
        processRowsEdge cfg targets st found_any rest

/-- Modelled from the spec: the edge-triggered variant of `check_slot`
(spec §4.4), identical but for the notification condition. -/
def check_slot_edge (cfg : Config) (prior : FileContent) (rows : List Row) :
    List Effect × Except String Unit :=
  if (targetsOf cfg).isEmpty then
    ([], .error "TARGET_COUNTRIES is empty or invalid. Provide e.g. 'Cyprus,Italy'")
  else
    let last_state := load_last_state prior
    match processRowsEdge cfg (targetsOf cfg) last_state false rows with
    | (es, .error e) => (Effect.fetchHtml :: Effect.readState :: es, .error e)
    | (es, .ok (st, _)) =>
      (Effect.fetchHtml :: Effect.readState :: (es ++ [Effect.writeState (save_last_state st)]),
        .ok ())

/-- Modelled from the spec: strict single-entity mode (spec §4.4 step 2,
§7) is not implemented in `src/check_schengen.py`; per the spec an
entity miss there is surfaced as a fatal error rather than logged, so
the run raises (and skips the save) when the single target was not
found. -/
def check_slot_strict (cfg : Config) (target : String) (prior : FileContent)
    (rows : List Row) : List Effect × Except String Unit :=
  let last_state := load_last_state prior
  match processRows cfg [normLowerKey target] last_state false rows with
  | (es, .error e) => (Effect.fetchHtml :: Effect.readState :: es, .error e)
  | (es, .ok (st, found_any)) =>
    if found_any then
      (Effect.fetchHtml :: Effect.readState :: (es ++ [Effect.writeState (save_last_state st)]),
        .ok ())
    else
      (Effect.fetchHtml :: Effect.readState :: es,
        .error ("Target country " ++ target ++ " not found in the table"))

/-- A concrete configuration used to instantiate the theorems below. -/
def cfgW : Config :=
  { citySlug := "dubai", visaType := "tourism", targetCountries := "Cyprus,Italy",
    telegramToken := "tok", chatId := "42" }

theorem dictInsert_lookup_self (m : List (String × String)) (k v : String) :
    (dictInsert m k v).lookup k = some v := by
  induction m with
  | nil => simp [dictInsert, List.lookup]
  | cons p rest ih =>
    obtain ⟨k₀, v₀⟩ := p
    by_cases h : k₀ = k
    · simp [dictInsert, h, List.lookup]
    · simp only [dictInsert, if_neg h, List.lookup]
      have hb : (k == k₀) = false := by
        simp [Ne.symm h]
      simp [hb, ih]

theorem mem_isEmpty_false {l : List String} {a : String}
    (h : a ∈ l) : l.isEmpty = false := by
  cases l with
  | nil => simp at h
  | cons x xs => simp

theorem processRows_ok (cfg : Config) (targets : List String)
    (htok : cfg.telegramToken ≠ "") (hchat : cfg.chatId ≠ "") :
    ∀ (rows : List Row) (st : List (String × String)) (f : Bool),
      ∃ es st' fa, processRows cfg targets st f rows = (es, .ok (st', fa)) := by
  intro rows
  induction rows with
  | nil => intro st f; exact ⟨[], st, f, rfl⟩
  | cons row rest ih =>
    intro st f
    obtain ⟨raw, span⟩ := row
    cases raw with
    | none => simpa [processRows] using ih st f
    | some raw_country =>
      by_cases hc : normLowerKey raw_country ∈ targets
      · by_cases hact : ¬span.getD "" = "" ∧ span.getD "" ∉ sentinels
        · obtain ⟨es, st', fa, heq⟩ :=
            ih (dictInsert st (normLowerKey raw_country) (span.getD "")) true
          refine ⟨Effect.httpPost
              { url := "https://api.telegram.org/bot" ++ cfg.telegramToken ++ "/sendMessage",
                chat_id := cfg.chatId,
                text := mkMessage cfg raw_country (span.getD ""),
                parse_mode := "Markdown" } :: es, st', fa, ?_⟩
          simp [processRows, hc, hact, send_telegram, htok, hchat, heq]
        · obtain ⟨es, st', fa, heq⟩ :=
            ih (dictInsert st (normLowerKey raw_country) (span.getD "")) true
          exact ⟨es, st', fa, by simp [processRows, hc, hact, heq]⟩
      · simpa [processRows, hc] using ih st f

theorem processRows_sentinel (cfg : Config) (targets : List String) :
    ∀ (rows : List Row) (st : List (String × String)) (f : Bool),
      (∀ row ∈ rows, row.span.getD "" = "" ∨ row.span.getD "" ∈ sentinels) →
      ∃ st' fa, processRows cfg targets st f rows = ([], .ok (st', fa)) := by
  intro rows
  induction rows with
  | nil => intro st f _; exact ⟨st, f, rfl⟩
  | cons row rest ih =>
    intro st f h
    have hrow := h row (by simp)
    have hrest : ∀ row ∈ rest, row.span.getD "" = "" ∨ row.span.getD "" ∈ sentinels :=
      fun r hr => h r (by simp [hr])
    obtain ⟨raw, span⟩ := row
    cases raw with
    | none => simpa [processRows] using ih st f hrest
    | some raw_country =>
      have hact : ¬(¬span.getD "" = "" ∧ span.getD "" ∉ sentinels) := by
        rcases hrow with h1 | h1 <;> simp_all
      by_cases hc : normLowerKey raw_country ∈ targets
      · simpa [processRows, hc, hact] using
          ih (dictInsert st (normLowerKey raw_country) (span.getD "")) true hrest
      · simpa [processRows, hc] using ih st f hrest

theorem processRowsEdge_sentinel (cfg : Config) (targets : List String) :
    ∀ (rows : List Row) (st : List (String × String)) (f : Bool),
      (∀ row ∈ rows, row.span.getD "" = "" ∨ row.span.getD "" ∈ sentinels) →
      ∃ st' fa, processRowsEdge cfg targets st f rows = ([], .ok (st', fa)) := by
  intro rows
  induction rows with
  | nil => intro st f _; exact ⟨st, f, rfl⟩
  | cons row rest ih =>
    intro st f h
    have hrow := h row (by simp)
    have hrest : ∀ row ∈ rest, row.span.getD "" = "" ∨ row.span.getD "" ∈ sentinels :=
      fun r hr => h r (by simp [hr])
    obtain ⟨raw, span⟩ := row
    cases raw with
    | none => simpa [processRowsEdge] using ih st f hrest
    | some raw_country =>
      have hact : ¬((¬span.getD "" = "" ∧ span.getD "" ∉ sentinels) ∧
          ¬List.lookup (normLowerKey raw_country) st = some (span.getD "")) := by
        rcases hrow with h1 | h1 <;> simp_all
      by_cases hc : normLowerKey raw_country ∈ targets
      · simpa [processRowsEdge, hc, hact] using
          ih (dictInsert st (normLowerKey raw_country) (span.getD "")) true hrest
      · simpa [processRowsEdge, hc] using ih st f hrest

theorem processRows_no_match (cfg : Config) (targets : List String) :
    ∀ (rows : List Row) (st : List (String × String)) (f : Bool),
      (∀ row ∈ rows, ∀ raw ∈ row.th, normLowerKey raw ∉ targets) →
      processRows cfg targets st f rows = ([], .ok (st, f)) := by
  intro rows
  induction rows with
  | nil => intro st f _; rfl
  | cons row rest ih =>
    intro st f h
    have hrow := h row (by simp)
    have hrest : ∀ row ∈ rest, ∀ raw ∈ row.th, normLowerKey raw ∉ targets :=
      fun r hr => h r (by simp [hr])
    obtain ⟨raw, span⟩ := row
    cases raw with
    | none => simpa [processRows] using ih st f hrest
    | some raw_country =>
      have hc : normLowerKey raw_country ∉ targets := hrow raw_country (by rfl)
      simpa [processRows, hc] using ih st f hrest

/-- C5: if the state file is absent, or its contents cannot be parsed
as JSON, loading the state returns the empty mapping; `load_last_state`
is a total function, so it never raises or aborts the run. -/
theorem load_last_state_tolerates_missing_and_corrupt :
    load_last_state .absent = [] ∧ load_last_state .invalid = [] :=
  ⟨rfl, rfl⟩

/-- C6: for every message, if the token or the chat id is the empty
string, `send_telegram` raises the `RuntimeError` and its network
trace is empty: no HTTP POST is attempted. -/
theorem send_telegram_requires_credentials (token chat_id text : String)
    (h : token = "" ∨ chat_id = "") :
    send_telegram token chat_id text =
      ([], some "Missing TELEGRAM_TOKEN or CHAT_ID environment variable") := by
  rcases h with h | h <;> simp [send_telegram, h]

/-- Witness for C6 at the concrete input (empty token, non-empty chat
id, message "hello"). -/
theorem send_telegram_requires_credentials_witness :
    send_telegram "" "42" "hello" =
      ([], some "Missing TELEGRAM_TOKEN or CHAT_ID environment variable") :=
  send_telegram_requires_credentials "" "42" "hello" (Or.inl rfl)

/-- C8 counterexample: `normalize_country_name` itself is not
case-insensitive — it strips the flag but preserves letter case, so
`normalize_country_name "Cyprus 🇨🇾" = "Cyprus"` while
`normalize_country_name "CYPRUS" = "CYPRUS"`. -/
theorem normalize_country_name_not_case_insensitive :
    normalize_country_name "Cyprus 🇨🇾" ≠ normalize_country_name "CYPRUS" ∧
    normalize_country_name "Cyprus 🇨🇾" = "Cyprus" ∧
    normalize_country_name "CYPRUS" = "CYPRUS" := by
  decide

/-- C8 (amended): case-insensitivity of matching is achieved by the
`.lower()` applied to the normalizer's output at both use sites
(src lines 90 and 125); that composed key collapses decorative and
case variants: `normLowerKey "Cyprus 🇨🇾" = normLowerKey "CYPRUS" =
"cyprus"`. -/
theorem normLowerKey_case_insensitive :
    normLowerKey "Cyprus 🇨🇾" = normLowerKey "CYPRUS" ∧
    normLowerKey "Cyprus 🇨🇾" = "cyprus" := by
  decide

/-- C10: if the configured tracked-entity list yields no non-empty
entries after splitting on commas and trimming, `check_slot` raises at
once — the effect trace is empty, so no HTML fetch and no state read
or write happened — and the process exits with code 1. -/
theorem empty_targets_fatal_before_any_io (cfg : Config) (prior : FileContent)
    (rows : List Row) (h : rawListOf cfg = []) :
    check_slot cfg prior rows =
      ([], .error "TARGET_COUNTRIES is empty or invalid. Provide e.g. 'Cyprus,Italy'") ∧
    mainExitCode cfg prior rows = 1 := by
  have ht : targetsOf cfg = [] := by simp [targetsOf, h]
  refine ⟨?_, ?_⟩
  · simp [check_slot, ht]
  · simp [mainExitCode, check_slot, ht]

/-- Witness for C10 at a concrete configuration whose target list is
only commas and blanks. -/
theorem empty_targets_fatal_before_any_io_witness :
    check_slot { cfgW with targetCountries := " , ,," } .absent [] =
      ([], .error "TARGET_COUNTRIES is empty or invalid. Provide e.g. 'Cyprus,Italy'") ∧
    mainExitCode { cfgW with targetCountries := " , ,," } .absent [] = 1 :=
  empty_targets_fatal_before_any_io { cfgW with targetCountries := " , ,," } .absent []
    (by decide)

theorem load_valid (st : List (String × String)) :
    load_last_state (.valid st) = st := rfl

theorem single_row_persist (cfg : Config) (prior : FileContent) (raw s : String)
    (hmem : normLowerKey raw ∈ targetsOf cfg)
    (htok : cfg.telegramToken ≠ "") (hchat : cfg.chatId ≠ "") :
    (savedOf (check_slot cfg prior [⟨some raw, some s⟩]).1).map
        (fun fc => (load_last_state fc).lookup (normLowerKey raw)) = [some s] := by
  have hemp := mem_isEmpty_false hmem
  by_cases hact : ¬s = "" ∧ s ∉ sentinels
  · simp [check_slot, hemp, processRows, hmem, hact, send_telegram, htok, hchat,
      savedOf, save_last_state, load_valid, dictInsert_lookup_self]
  · simp [check_slot, hemp, processRows, hmem, hact,
      savedOf, save_last_state, load_valid, dictInsert_lookup_self]

/-- C1: in edge-triggered mode (modelled from the spec; the shipped
code is level-triggered only), a tracked entity whose observed
actionable status equals the last persisted value produces no
notification, and the persisted state for that entity is unchanged. -/
theorem edge_triggered_unchanged_suppresses (cfg : Config) (prior : FileContent)
    (raw s : String)
    (hmem : normLowerKey raw ∈ targetsOf cfg)
    (hne : s ≠ "") (hs : s ∉ sentinels)
    (hlast : (load_last_state prior).lookup (normLowerKey raw) = some s) :
    notificationsOf (check_slot_edge cfg prior [⟨some raw, some s⟩]).1 = [] ∧
    (savedOf (check_slot_edge cfg prior [⟨some raw, some s⟩]).1).map
        (fun fc => (load_last_state fc).lookup (normLowerKey raw)) =
      [(load_last_state prior).lookup (normLowerKey raw)] := by
  have hemp := mem_isEmpty_false hmem
  constructor <;>
    simp [check_slot_edge, hemp, processRowsEdge, hmem, hne, hs, hlast,
      notificationsOf, savedOf, save_last_state, load_valid, dictInsert_lookup_self]

/-- Witness for C1: prior state maps cyprus to "03 Jun" and the row
observes "03 Jun" again. -/
theorem edge_triggered_unchanged_suppresses_witness :
    notificationsOf
        (check_slot_edge cfgW (.valid [("cyprus", "03 Jun")])
          [⟨some "Cyprus 🇨🇾", some "03 Jun"⟩]).1 = [] ∧
    (savedOf
        (check_slot_edge cfgW (.valid [("cyprus", "03 Jun")])
          [⟨some "Cyprus 🇨🇾", some "03 Jun"⟩]).1).map
        (fun fc => (load_last_state fc).lookup (normLowerKey "Cyprus 🇨🇾")) =
      [(load_last_state (.valid [("cyprus", "03 Jun")])).lookup
        (normLowerKey "Cyprus 🇨🇾")] :=
  edge_triggered_unchanged_suppresses cfgW (.valid [("cyprus", "03 Jun")])
    "Cyprus 🇨🇾" "03 Jun" (by decide) (by decide) (by decide) (by decide)

/-- C2: in level-triggered mode (the shipped `check_slot`), a tracked
entity with a non-empty, non-sentinel status triggers exactly one
notification, whatever the prior persisted state is. -/
theorem level_triggered_notifies_every_run (cfg : Config) (prior : FileContent)
    (raw s : String)
    (hmem : normLowerKey raw ∈ targetsOf cfg)
    (hne : s ≠ "") (hs : s ∉ sentinels)
    (htok : cfg.telegramToken ≠ "") (hchat : cfg.chatId ≠ "") :
    notificationsOf (check_slot cfg prior [⟨some raw, some s⟩]).1 =
      [⟨"https://api.telegram.org/bot" ++ cfg.telegramToken ++ "/sendMessage",
        cfg.chatId, mkMessage cfg raw s, "Markdown"⟩] := by
  have hemp := mem_isEmpty_false hmem
  simp [check_slot, hemp, processRows, hmem, hne, hs, send_telegram, htok, hchat,
    notificationsOf]

/-- Witness for C2: the prior state already records "03 Jun" for
cyprus and the notification still fires. -/
theorem level_triggered_notifies_every_run_witness :
    notificationsOf
        (check_slot cfgW (.valid [("cyprus", "03 Jun")])
          [⟨some "Cyprus 🇨🇾", some "03 Jun"⟩]).1 =
      [⟨"https://api.telegram.org/bot" ++ cfgW.telegramToken ++ "/sendMessage",
        cfgW.chatId, mkMessage cfgW "Cyprus 🇨🇾" "03 Jun", "Markdown"⟩] :=
  level_triggered_notifies_every_run cfgW (.valid [("cyprus", "03 Jun")])
    "Cyprus 🇨🇾" "03 Jun" (by decide) (by decide) (by decide) (by decide) (by decide)

/-- C3: for every tracked entity and every prior persisted state, an
observed status that is exactly "No availability", exactly
"Waitlist Open", or empty, never triggers a notification — in the
shipped level-triggered `check_slot` as well as in the edge-triggered
variant. -/
theorem sentinel_status_never_notifies (cfg : Config) (prior : FileContent)
    (rows : List Row)
    (h : ∀ row ∈ rows, row.span.getD "" = "" ∨ row.span.getD "" ∈ sentinels) :
    notificationsOf (check_slot cfg prior rows).1 = [] ∧
    notificationsOf (check_slot_edge cfg prior rows).1 = [] := by
  constructor
  · by_cases hemp : (targetsOf cfg).isEmpty = true
    · simp [check_slot, hemp, notificationsOf]
    · obtain ⟨st', fa, heq⟩ :=
        processRows_sentinel cfg (targetsOf cfg) rows (load_last_state prior) false h
      simp [check_slot, hemp, heq, notificationsOf]
  · by_cases hemp : (targetsOf cfg).isEmpty = true
    · simp [check_slot_edge, hemp, notificationsOf]
    · obtain ⟨st', fa, heq⟩ :=
        processRowsEdge_sentinel cfg (targetsOf cfg) rows (load_last_state prior) false h
      simp [check_slot_edge, hemp, heq, notificationsOf]

/-- Witness for C3: one tracked row per sentinel ("No availability",
"Waitlist Open", and a row without a status span), prior state maps
cyprus to an actionable value. -/
theorem sentinel_status_never_notifies_witness :
    notificationsOf
        (check_slot cfgW (.valid [("cyprus", "03 Jun")])
          [⟨some "Cyprus 🇨🇾", some "No availability"⟩,
           ⟨some "Italy", some "Waitlist Open"⟩,
           ⟨some "Cyprus 🇨🇾", none⟩]).1 = [] ∧
    notificationsOf
        (check_slot_edge cfgW (.valid [("cyprus", "03 Jun")])
          [⟨some "Cyprus 🇨🇾", some "No availability"⟩,
           ⟨some "Italy", some "Waitlist Open"⟩,
           ⟨some "Cyprus 🇨🇾", none⟩]).1 = [] :=
  sentinel_status_never_notifies cfgW (.valid [("cyprus", "03 Jun")])
    [⟨some "Cyprus 🇨🇾", some "No availability"⟩,
     ⟨some "Italy", some "Waitlist Open"⟩,
     ⟨some "Cyprus 🇨🇾", none⟩] (by decide)

/-- C4: for a tracked entity matched in the rows, the observed status
(actionable, sentinel, or empty alike) is recorded under its
normalized key in the state written at the end of the run, whether or
not a notification fired. -/
theorem matched_entity_status_persisted (cfg : Config) (prior : FileContent)
    (raw s : String)
    (hmem : normLowerKey raw ∈ targetsOf cfg)
    (htok : cfg.telegramToken ≠ "") (hchat : cfg.chatId ≠ "") :
    (savedOf (check_slot cfg prior [⟨some raw, some s⟩]).1).map
        (fun fc => (load_last_state fc).lookup (normLowerKey raw)) = [some s] :=
  single_row_persist cfg prior raw s hmem htok hchat

/-- Witness for C4 at a sentinel status: no notification fires, yet
"No availability" replaces the prior "03 Jun" in the saved state. -/
theorem matched_entity_status_persisted_witness :
    (savedOf (check_slot cfgW (.valid [("cyprus", "03 Jun")])
          [⟨some "Cyprus 🇨🇾", some "No availability"⟩]).1).map
        (fun fc => (load_last_state fc).lookup (normLowerKey "Cyprus 🇨🇾")) =
      [some "No availability"] :=
  matched_entity_status_persisted cfgW (.valid [("cyprus", "03 Jun")])
    "Cyprus 🇨🇾" "No availability" (by decide) (by decide) (by decide)

/-- C9: a tracked row whose status span is absent is not skipped: it
is evaluated with the empty status, which is treated like "no
availability" (no notification) and persisted as "". -/
theorem absent_status_slot_reported_empty (cfg : Config) (prior : FileContent)
    (raw : String) (hmem : normLowerKey raw ∈ targetsOf cfg) :
    notificationsOf (check_slot cfg prior [⟨some raw, none⟩]).1 = [] ∧
    (savedOf (check_slot cfg prior [⟨some raw, none⟩]).1).map
        (fun fc => (load_last_state fc).lookup (normLowerKey raw)) = [some ""] := by
  have hemp := mem_isEmpty_false hmem
  constructor <;>
    simp [check_slot, hemp, processRows, hmem, notificationsOf,
      savedOf, save_last_state, load_valid, dictInsert_lookup_self]

/-- Witness for C9: a cyprus row with no status span. -/
theorem absent_status_slot_reported_empty_witness :
    notificationsOf (check_slot cfgW (.valid [("cyprus", "03 Jun")])
        [⟨some "Cyprus 🇨🇾", none⟩]).1 = [] ∧
    (savedOf (check_slot cfgW (.valid [("cyprus", "03 Jun")])
        [⟨some "Cyprus 🇨🇾", none⟩]).1).map
        (fun fc => (load_last_state fc).lookup (normLowerKey "Cyprus 🇨🇾")) =
      [some ""] :=
  absent_status_slot_reported_empty cfgW (.valid [("cyprus", "03 Jun")])
    "Cyprus 🇨🇾" (by decide)

/-- C7: with valid credentials and a non-empty target list, the
multi-entity `check_slot` never raises for a missing entity — any row
set, including a partial or total miss of the targets, ends in
success — and a tracked entity that is present is still processed
(its status is persisted); in the strict single-entity variant
(modelled from the spec), a miss of the single target raises. -/
theorem missing_entity_handling (cfg : Config) (prior : FileContent)
    (rows rowsM : List Row) (rawB sB target : String)
    (htok : cfg.telegramToken ≠ "") (hchat : cfg.chatId ≠ "")
    (htargets : (targetsOf cfg).isEmpty = false)
    (hB : normLowerKey rawB ∈ targetsOf cfg)
    (hmiss : ∀ row ∈ rowsM, row.th.map normLowerKey ≠ some (normLowerKey target)) :
    (check_slot cfg prior rows).2 = .ok () ∧
    (savedOf (check_slot cfg prior [⟨some rawB, some sB⟩]).1).map
        (fun fc => (load_last_state fc).lookup (normLowerKey rawB)) = [some sB] ∧
    (check_slot_strict cfg target prior rowsM).2 =
      .error ("Target country " ++ target ++ " not found in the table") := by
  refine ⟨?_, single_row_persist cfg prior rawB sB hB htok hchat, ?_⟩
  · obtain ⟨es, st', fa, heq⟩ :=
      processRows_ok cfg (targetsOf cfg) htok hchat rows (load_last_state prior) false
    simp [check_slot, htargets, heq]
  · have h' : ∀ row ∈ rowsM, ∀ raw ∈ row.th,
        normLowerKey raw ∉ [normLowerKey target] := by
      intro row hr raw hraw
      have hm := hmiss row hr
      cases hth : row.th with
      | none => simp [hth] at hraw
      | some r =>
        simp [hth] at hraw hm
        subst hraw
        simpa using hm
    have heq := processRows_no_match cfg [normLowerKey target] rowsM
      (load_last_state prior) false h'
    simp [check_slot_strict, heq]

/-- Witness for C7: cfgW tracks cyprus and italy; the first row set
misses both targets entirely yet the run succeeds; an italy row is
processed and persisted; strict mode on "Cyprus" raises when only
Germany appears. -/
theorem missing_entity_handling_witness :
    (check_slot cfgW .absent [⟨some "Germany", some "01 Jan"⟩]).2 = .ok () ∧
    (savedOf (check_slot cfgW .absent [⟨some "Italy 🇮🇹", some "05 Jul"⟩]).1).map
        (fun fc => (load_last_state fc).lookup (normLowerKey "Italy 🇮🇹")) =
      [some "05 Jul"] ∧
    (check_slot_strict cfgW "Cyprus" .absent [⟨some "Germany", some "03 Jun"⟩]).2 =
      .error ("Target country " ++ "Cyprus" ++ " not found in the table") :=
  missing_entity_handling cfgW .absent [⟨some "Germany", some "01 Jan"⟩]
    [⟨some "Germany", some "03 Jun"⟩] "Italy 🇮🇹" "05 Jul" "Cyprus"
    (by decide) (by decide) (by decide) (by decide) (by decide)
